import Mathlib

/-!
Metrics aggregator: data generation and per-campaign aggregation.

A shallow embedding of `main.go`: the synthetic data generator
(`generateTestData`, `clearTestData`, `createMetricsFast`,
`createMetricsFastParallel`) and the three aggregation strategies
(`aggregateDataNaive`, `aggregateDataParallelAdAccounts`,
`aggregateDataParallelCampaigns`).

Conventions of the embedding:

* Go `int` loop counters and lengths are natural numbers; every conversion
  `int32(x)` of the source is the explicit wrap-around `int32`.
* A `panic` is a value: the generator threads a `Run` (the store calls issued
  so far, the store state, the pending panic), and once a panic is recorded no
  later statement has any effect.
* The package `adapters/db` (the generated query code and the database behind
  it) lies outside `main.go`.  Its write operations are a parameter `exec`, its
  read operations a parameter `Queries`; `Store` is a model of it written from
  the specification.
* Goroutines are a step function driven by a schedule (the list of worker
  indices in the order in which they take their next step).
-/

namespace MetricsAggregator

/-! ## Machine integers -/

/-- Go's conversion `int32(x)`: the two's complement value of the low 32 bits. -/
def int32 (x : Int) : Int := (x + 2147483648) % 4294967296 - 2147483648

/-! ## Parameters of the store's write operations -/

/-- Argument of `db.CreateAdAccount`. -/
structure CreateAdAccountParams where
  ID : Int
  Name : String
  deriving DecidableEq, Repr

/-- Argument of `db.CreateCampaign`. -/
structure CreateCampaignParams where
  ID : Int
  Name : String
  AdAccountID : Int
  deriving DecidableEq, Repr

/-- Argument of `db.CreateAd`. -/
structure CreateAdParams where
  ID : Int
  Name : String
  CampaignID : Int
  deriving DecidableEq, Repr

/-- One record of the batch passed to `db.CreateMetricCopyFrom`. -/
structure CreateMetricCopyFromParams where
  Name : String
  AdID : Int
  Timestamp : Int
  Value : Int
  deriving DecidableEq, Repr

/-- The write operations of `db.Queries` that the generator calls. -/
inductive StoreCall where
  | ClearMetrics
  | ClearAds
  | ClearCampaigns
  | ClearAdAccounts
  | CreateAdAccount (arg : CreateAdAccountParams)
  | CreateCampaign (arg : CreateCampaignParams)
  | CreateAd (arg : CreateAdParams)
  | CreateMetricCopyFrom (arg : List CreateMetricCopyFromParams)
  deriving DecidableEq, Repr

/-- The reasons for which the program panics. -/
inductive Panic where
  | store (err : String)
  | divideByZero
  deriving DecidableEq, Repr

/-- A run of the generator against a store with states `σ`: the calls issued so
far (oldest first, a failing call included), the store state, and the panic
that stopped the run, if any. -/
structure Run (σ : Type) where
  calls : List StoreCall
  state : σ
  panic : Option Panic

/-- Issue one store call; `if err != nil { panic(err) }`. -/
def Run.call {σ : Type} (exec : StoreCall → σ → Except String σ) (r : Run σ)
    (c : StoreCall) : Run σ :=
  match r.panic with
  | some _ => r
  | none =>
    match exec c r.state with
    | .ok s => { calls := r.calls ++ [c], state := s, panic := none }
    | .error e => { calls := r.calls ++ [c], state := r.state, panic := some (.store e) }

/-- A run-time panic that is not a store error. -/
def Run.die {σ : Type} (r : Run σ) (p : Panic) : Run σ :=
  match r.panic with
  | some _ => r
  | none => { r with panic := some p }

/-! ## The generator -/

/-- `clearTestData`. -/
def clearTestData {σ : Type} (exec : StoreCall → σ → Except String σ) (r : Run σ) : Run σ :=
  let r := r.call exec .ClearMetrics
  let r := r.call exec .ClearAds
  let r := r.call exec .ClearCampaigns
  r.call exec .ClearAdAccounts

/-- The inner loop of `createMetricsFast`: `nDays` records appended to `params`. -/
def appendSeries (metricName : String) (adId : Int) (nDays : Nat)
    (params : List CreateMetricCopyFromParams) : List CreateMetricCopyFromParams :=
  (List.range nDays).foldl
    (fun params j =>
      params ++ [{ Name := metricName, AdID := adId,
                   Timestamp := int32 (1609459200 + (j : Int) * 86400), Value := 10 }])
    params

/-- The two nested loops of `createMetricsFast` (and of `createMetricsFastParallel`)
that build `params`; `i % nAds` panics when `nAds` is zero. -/
def buildParams (nMetrics nAds nDays : Nat) : Except Panic (List CreateMetricCopyFromParams) :=
  (List.range nMetrics).foldlM
    (fun params i =>
      if nAds = 0 then Except.error Panic.divideByZero
      else Except.ok (appendSeries ("Metric " ++ toString i) (int32 ((i % nAds : Nat) : Int)) nDays params))
    []

/-- `createMetricsFast`: build the batch, then one `CreateMetricCopyFrom` call. -/
def createMetricsFast {σ : Type} (exec : StoreCall → σ → Except String σ) (r : Run σ)
    (nMetrics nAds nDays : Nat) : Run σ :=
  match r.panic with
  | some _ => r
  | none =>
    match buildParams nMetrics nAds nDays with
    | .error p => r.die p
    | .ok params => r.call exec (.CreateMetricCopyFrom params)

/-- `generateTestData`, started on the store state `s`. -/
def generateTestData {σ : Type} (exec : StoreCall → σ → Except String σ)
    (nAdAccounts nCampaigns nAds nMetrics nDays : Nat) (s : σ) : Run σ :=
  let r := clearTestData exec { calls := [], state := s, panic := none }
  let r := (List.range nAdAccounts).foldl
    (fun r i =>
      r.call exec (.CreateAdAccount { ID := int32 (i : Int), Name := "AdAccount " ++ toString i }))
    r
  let r := (List.range nCampaigns).foldl
    (fun r i =>
      if nAdAccounts = 0 then r.die .divideByZero
      else r.call exec (.CreateCampaign
        { ID := int32 (i : Int), Name := "Campaign " ++ toString i,
          AdAccountID := int32 ((i % nAdAccounts : Nat) : Int) }))
    r
  let r := (List.range nAds).foldl
    (fun r i =>
      if nCampaigns = 0 then r.die .divideByZero
      else r.call exec (.CreateAd
        { ID := int32 (i : Int), Name := "Ad " ++ toString i,
          CampaignID := int32 ((i % nCampaigns : Nat) : Int) }))
    r
  createMetricsFast exec r nMetrics nAds nDays

/-! ## Closed forms of what the generator builds -/

/-- The record that series `i` contributes for day `j`. -/
def metricRecord (nAds i j : Nat) : CreateMetricCopyFromParams :=
  { Name := "Metric " ++ toString i, AdID := int32 ((i % nAds : Nat) : Int),
    Timestamp := int32 (1609459200 + (j : Int) * 86400), Value := 10 }

/-- The batch as a list: series after series, day after day. -/
def metricBatch (nMetrics nAds nDays : Nat) : List CreateMetricCopyFromParams :=
  (List.range nMetrics).flatMap (fun i => (List.range nDays).map (metricRecord nAds i))


/-! ## Outcomes of code that may panic, block or run on -/

/-- How a piece of the program ends: it returns a value, it panics, it blocks
for ever on a channel operation that no goroutine can complete, or it has not
returned within the steps it was given. -/
inductive Outcome (α : Type) where
  | finished (a : α)
  | panicked (p : Panic)
  | deadlock
  | unfinished
  deriving DecidableEq, Repr

/-! ## The chunking loop of `createMetricsFastParallel` -/

/-- The loop `for i := 0; i < len(params); i += chunkSize` of
`createMetricsFastParallel`, entered at index `i` with the slices `sent` already
sent on `workCh`; `fuel` bounds the number of evaluations of the loop test. -/
def chunkLoop {α : Type} (params : List α) (chunkSize : Nat) :
    Nat → Nat → List (List α) → Option (List (List α))
  | 0, _, _ => none
  | fuel + 1, i, sent =>
    if i < params.length then
      let j := i + chunkSize
      let j := if j > params.length then params.length else j
      chunkLoop params chunkSize fuel (i + chunkSize) (sent ++ [(params.take j).drop i])
    else some sent

/-- The distribution of `params` among the workers in `createMetricsFastParallel`:
the slices sent on `workCh`, in the order in which they are sent. -/
def distributeWork {α : Type} (fuel : Nat) (params : List α) (nWorkers : Nat) :
    Outcome (List (List α)) :=
  if nWorkers = 0 then .panicked .divideByZero
  else
    let chunkSize := (params.length + nWorkers - 1) / nWorkers
    match chunkLoop params chunkSize fuel 0 [] with
    | none => .unfinished
    | some sent => .finished sent

/-- `createMetricsFastParallel`, as far as the producer is concerned: the batch
is built as in `createMetricsFast` and cut into the slices sent to the workers. -/
def createMetricsFastParallel (fuel nMetrics nAds nDays nWorkers : Nat) :
    Outcome (List (List CreateMetricCopyFromParams)) :=
  match buildParams nMetrics nAds nDays with
  | .error p => .panicked p
  | .ok params => distributeWork fuel params nWorkers

/-! ## The fixed call sequence of a generation run -/

/-- Issue the calls of a list in order; a failing call stops the run. -/
def issueAll {σ : Type} (exec : StoreCall → σ → Except String σ) (r : Run σ)
    (cs : List StoreCall) : Run σ :=
  cs.foldl (Run.call exec) r

/-- The store state after all calls of a list have succeeded, or the error of the
first call that fails. -/
def replay {σ : Type} (exec : StoreCall → σ → Except String σ) (s : σ)
    (cs : List StoreCall) : Except String σ :=
  cs.foldlM (fun s c => exec c s) s

/-- The argument of the `i`-th `CreateAdAccount` call. -/
def adAccountParams (i : Nat) : CreateAdAccountParams :=
  { ID := int32 (i : Int), Name := "AdAccount " ++ toString i }

/-- The argument of the `i`-th `CreateCampaign` call. -/
def campaignParams (nAdAccounts i : Nat) : CreateCampaignParams :=
  { ID := int32 (i : Int), Name := "Campaign " ++ toString i,
    AdAccountID := int32 ((i % nAdAccounts : Nat) : Int) }

/-- The argument of the `i`-th `CreateAd` call. -/
def adParams (nCampaigns i : Nat) : CreateAdParams :=
  { ID := int32 (i : Int), Name := "Ad " ++ toString i,
    CampaignID := int32 ((i % nCampaigns : Nat) : Int) }

/-- The reset and the row-by-row creations, in the order of `generateTestData`. -/
def creationSequence (nAdAccounts nCampaigns nAds : Nat) : List StoreCall :=
  [.ClearMetrics, .ClearAds, .ClearCampaigns, .ClearAdAccounts]
    ++ (List.range nAdAccounts).map (fun i => .CreateAdAccount (adAccountParams i))
    ++ (List.range nCampaigns).map (fun i => .CreateCampaign (campaignParams nAdAccounts i))
    ++ (List.range nAds).map (fun i => .CreateAd (adParams nCampaigns i))

/-- The fixed sequence of store calls of a complete run: reset, accounts,
campaigns, ads, one bulk insert of the metrics. -/
def fullSequence (nAdAccounts nCampaigns nAds nMetrics nDays : Nat) : List StoreCall :=
  creationSequence nAdAccounts nCampaigns nAds
    ++ [.CreateMetricCopyFrom (metricBatch nMetrics nAds nDays)]

/-- A store that accepts every call and records nothing. -/
def acceptAll : StoreCall → Unit → Except String Unit := fun _ u => .ok u

/-- Row of `db.GetAdAccounts`. -/
structure AdAccount where
  ID : Int
  Name : String
  deriving DecidableEq, Repr

/-- Row of `db.GetCampaignsForAdAccount`. -/
structure Campaign where
  ID : Int
  Name : String
  AdAccountID : Int
  deriving DecidableEq, Repr

/-- Row of `db.AggregateMetricsForCampaign`; `T` is the type of `TotalValue`. -/
structure AggregateMetricsForCampaignRow (T : Type) where
  TotalValue : T
  deriving DecidableEq, Repr

/-- The read operations of `db.Queries` that the aggregation strategies call, on
a fixed store state; each returns its rows or an error. -/
structure Queries (T : Type) where
  GetAdAccounts : Except String (List AdAccount)
  GetCampaignsForAdAccount : Int → Except String (List Campaign)
  AggregateMetricsForCampaign : Int → Except String (AggregateMetricsForCampaignRow T)

/-! ## Go maps with `int32` keys -/

/-- A `map[int32]V`: its entries, at most one per key. -/
abbrev GoMap (V : Type) := List (Int × V)

/-- The lookup `m[k]`, with `none` for an absent key. -/
def GoMap.get? {V : Type} : GoMap V → Int → Option V
  | [], _ => none
  | (k1, v) :: rest, k => if k1 = k then some v else GoMap.get? rest k

/-- The assignment `m[k] = v`. -/
def GoMap.set {V : Type} (m : GoMap V) (k : Int) (v : V) : GoMap V :=
  (k, v) :: m.filter (fun e => decide (e.1 ≠ k))

/-- The keys of a map. -/
def GoMap.keys {V : Type} (m : GoMap V) : List Int := m.map Prod.fst

/-! ## Sequential aggregation -/

/-- The inner loop of `aggregateDataNaive`: one aggregate query per campaign, each
result stored at once as `metricsAgg[campaign.ID] = float64(aggValue.TotalValue)`. -/
def aggregateCampaigns {T F : Type} (float64 : T → F) (q : Queries T)
    (metricsAgg : GoMap F) (campaigns : List Campaign) : Except Panic (GoMap F) :=
  campaigns.foldlM
    (fun metricsAgg campaign =>
      match q.AggregateMetricsForCampaign campaign.ID with
      | .error e => .error (.store e)
      | .ok aggValue => .ok (metricsAgg.set campaign.ID (float64 aggValue.TotalValue)))
    metricsAgg

/-- The outer loop of `aggregateDataNaive` over the accounts. -/
def aggregateAccounts {T F : Type} (float64 : T → F) (q : Queries T)
    (metricsAgg : GoMap F) (adAccounts : List AdAccount) : Except Panic (GoMap F) :=
  adAccounts.foldlM
    (fun metricsAgg adAccount =>
      match q.GetCampaignsForAdAccount adAccount.ID with
      | .error e => .error (.store e)
      | .ok campaigns => aggregateCampaigns float64 q metricsAgg campaigns)
    metricsAgg

/-- `aggregateDataNaive`: the mapping `metricsAgg` it has built when it returns. -/
def aggregateDataNaive {T F : Type} (float64 : T → F) (q : Queries T) :
    Except Panic (GoMap F) :=
  match q.GetAdAccounts with
  | .error e => .error (.store e)
  | .ok adAccounts => aggregateAccounts float64 q [] adAccounts

/-! ## The enqueue phases of the fan-out strategies -/

/-- Sends of `items`, in order, on a channel with buffer `buf` and capacity `cap`
from which no goroutine receives: a send on a full buffer blocks for ever
(`none`); otherwise the buffer after the last send. -/
def sendAll {α : Type} (cap : Nat) : List α → List α → Option (List α)
  | buf, [] => some buf
  | buf, x :: rest => if buf.length < cap then sendAll cap (buf ++ [x]) rest else none

/-- The enqueue loop of `aggregateDataParallelCampaigns` over the accounts: fetch
the campaigns of the account and send each on `workCh` (of capacity `cap`). -/
def enqueueCampaigns {T : Type} (q : Queries T) (cap : Nat) :
    List AdAccount → List Campaign → Outcome (List Campaign)
  | [], buf => .finished buf
  | adAccount :: rest, buf =>
    match q.GetCampaignsForAdAccount adAccount.ID with
    | .error e => .panicked (.store e)
    | .ok campaigns =>
      match sendAll cap buf campaigns with
      | none => .deadlock
      | some buf1 => enqueueCampaigns q cap rest buf1

/-! ## Fan-out by campaign -/

/-- Where a worker goroutine of `aggregateDataParallelCampaigns` stands. -/
inductive CampaignWorker (F : Type) where
  /-- at the receive of `for campaign := range workCh` -/
  | receiving
  /-- holding a campaign, before `q.AggregateMetricsForCampaign` -/
  | querying (campaign : Campaign)
  /-- holding the total, before `mu.Lock(); metricsAgg[...] = ...; mu.Unlock()` -/
  | storing (campaign : Campaign) (value : F)
  /-- returned (`wg.Done()` has run) -/
  | exited
  deriving DecidableEq, Repr

/-- The shared state of the worker phase of `aggregateDataParallelCampaigns`. -/
structure CampaignPool (F : Type) where
  /-- the closed channel: the campaigns still buffered, oldest first -/
  workCh : List Campaign
  workers : List (CampaignWorker F)
  metricsAgg : GoMap F
  panic : Option Panic

/-- One step of worker `w`. -/
def CampaignPool.step {T F : Type} (float64 : T → F) (q : Queries T)
    (st : CampaignPool F) (w : Nat) : CampaignPool F :=
  match st.panic with
  | some _ => st
  | none =>
    match st.workers[w]? with
    | none => st
    | some .receiving =>
      match st.workCh with
      | [] => { st with workers := st.workers.set w .exited }
      | campaign :: rest =>
        { st with workCh := rest, workers := st.workers.set w (.querying campaign) }
    | some (.querying campaign) =>
      match q.AggregateMetricsForCampaign campaign.ID with
      | .error e => { st with panic := some (.store e) }
      | .ok aggValue =>
        { st with workers := st.workers.set w (.storing campaign (float64 aggValue.TotalValue)) }
    | some (.storing campaign value) =>
      { st with metricsAgg := st.metricsAgg.set campaign.ID value,
                workers := st.workers.set w .receiving }
    | some .exited => st

/-- The worker phase under a schedule, and what `wg.Wait()` then sees. -/
def CampaignPool.run {T F : Type} (float64 : T → F) (q : Queries T)
    (st : CampaignPool F) (sched : List Nat) : CampaignPool F :=
  sched.foldl (CampaignPool.step float64 q) st

/-- Has the worker returned? -/
def CampaignWorker.isExited {F : Type} : CampaignWorker F → Bool
  | .exited => true
  | _ => false

/-- `aggregateDataParallelCampaigns` with `numCPU` workers under the schedule
`sched`: the mapping `metricsAgg` it has built when `wg.Wait()` returns. -/
def aggregateDataParallelCampaigns {T F : Type} (float64 : T → F) (q : Queries T)
    (numCPU : Nat) (sched : List Nat) : Outcome (GoMap F) :=
  match q.GetAdAccounts with
  | .error e => .panicked (.store e)
  | .ok adAccounts =>
    match enqueueCampaigns q 100 adAccounts [] with
    | .panicked p => .panicked p
    | .deadlock => .deadlock
    | .unfinished => .unfinished
    | .finished workCh =>
      let st := CampaignPool.run float64 q
        { workCh := workCh, workers := List.replicate numCPU .receiving,
          metricsAgg := [], panic := none } sched
      match st.panic with
      | some p => .panicked p
      | none => if st.workers.all CampaignWorker.isExited then .finished st.metricsAgg
                else .unfinished

/-! ## Fan-out by account -/

/-- Where a worker goroutine of `aggregateDataParallelAdAccounts` stands. -/
inductive AccountWorker where
  /-- at the receive of `for adAccount := range workCh` -/
  | receiving
  /-- holding an account, before `q.GetCampaignsForAdAccount` -/
  | fetching (adAccount : AdAccount)
  /-- in the loop over the campaigns of the account, these being left -/
  | aggregating (adAccount : AdAccount) (campaigns : List Campaign)
  /-- returned (`wg.Done()` has run) -/
  | exited
  deriving DecidableEq, Repr

/-- The shared state of the worker phase of `aggregateDataParallelAdAccounts`:
the function keeps no mapping; `logged` holds the pairs of its log lines
"Aggregated data for key: value", the key `"%d:%d"` of account ID and campaign
ID kept as the pair of the two IDs. -/
structure AccountPool (F : Type) where
  workCh : List AdAccount
  workers : List AccountWorker
  logged : List ((Int × Int) × F)
  panic : Option Panic

/-- One step of worker `w`. -/
def AccountPool.step {T F : Type} (float64 : T → F) (q : Queries T)
    (st : AccountPool F) (w : Nat) : AccountPool F :=
  match st.panic with
  | some _ => st
  | none =>
    match st.workers[w]? with
    | none => st
    | some .receiving =>
      match st.workCh with
      | [] => { st with workers := st.workers.set w .exited }
      | adAccount :: rest =>
        { st with workCh := rest, workers := st.workers.set w (.fetching adAccount) }
    | some (.fetching adAccount) =>
      match q.GetCampaignsForAdAccount adAccount.ID with
      | .error e => { st with panic := some (.store e) }
      | .ok campaigns =>
        { st with workers := st.workers.set w (.aggregating adAccount campaigns) }
    | some (.aggregating _ []) =>
      { st with workers := st.workers.set w .receiving }
    | some (.aggregating adAccount (campaign :: rest)) =>
      match q.AggregateMetricsForCampaign campaign.ID with
      | .error e => { st with panic := some (.store e) }
      | .ok aggValue =>
        { st with logged := st.logged ++ [((adAccount.ID, campaign.ID), float64 aggValue.TotalValue)],
                  workers := st.workers.set w (.aggregating adAccount rest) }
    | some .exited => st

/-- The worker phase under a schedule. -/
def AccountPool.run {T F : Type} (float64 : T → F) (q : Queries T)
    (st : AccountPool F) (sched : List Nat) : AccountPool F :=
  sched.foldl (AccountPool.step float64 q) st

/-- Has the worker returned? -/
def AccountWorker.isExited : AccountWorker → Bool
  | .exited => true
  | _ => false

/-- The campaigns returned for an account (none if the query fails). -/
def Queries.campaignsOf {T : Type} (q : Queries T) (adAccountID : Int) : List Campaign :=
  match q.GetCampaignsForAdAccount adAccountID with
  | .ok campaigns => campaigns
  | .error _ => []

/-- The value `float64(aggValue.TotalValue)` for a campaign, if the query succeeds. -/
def Queries.totalOf {T F : Type} (float64 : T → F) (q : Queries T) (campaignID : Int) :
    Option F :=
  match q.AggregateMetricsForCampaign campaignID with
  | .ok aggValue => some (float64 aggValue.TotalValue)
  | .error _ => none

/-- The campaigns of the given accounts, in the order in which the strategies
walk them. -/
def Queries.walk {T : Type} (q : Queries T) (adAccounts : List AdAccount) : List Campaign :=
  adAccounts.flatMap (fun a => q.campaignsOf a.ID)

/-! ## A model of the store -/

/-- Row of the ads collection. -/
structure Ad where
  ID : Int
  Name : String
  CampaignID : Int
  deriving DecidableEq, Repr

/-- Row of the metrics collection. -/
structure Metric where
  Name : String
  AdID : Int
  Timestamp : Int
  Value : Int
  deriving DecidableEq, Repr

/-- Modelled from the spec: the state of the Schema Store (the package
`adapters/db` and the database behind it are missing from the sources): the
four entity collections of the data model. -/
structure Store where
  adAccounts : List AdAccount
  campaigns : List Campaign
  ads : List Ad
  metrics : List Metric
  deriving DecidableEq, Repr

/-- Modelled from the spec: the write operations of the Schema Store (absent
package `adapters/db`).  The clears truncate one collection; the single-row
creations insert one row and "fail if a referenced parent ID does not exist";
the bulk insert accepts the whole batch. -/
def Store.exec : StoreCall → Store → Except String Store
  | .ClearMetrics, s => .ok { s with metrics := [] }
  | .ClearAds, s => .ok { s with ads := [] }
  | .ClearCampaigns, s => .ok { s with campaigns := [] }
  | .ClearAdAccounts, s => .ok { s with adAccounts := [] }
  | .CreateAdAccount arg, s =>
    .ok { s with adAccounts := s.adAccounts ++ [{ ID := arg.ID, Name := arg.Name }] }
  | .CreateCampaign arg, s =>
    if s.adAccounts.any (fun a => decide (a.ID = arg.AdAccountID)) then
      .ok { s with campaigns := s.campaigns ++
              [{ ID := arg.ID, Name := arg.Name, AdAccountID := arg.AdAccountID }] }
    else .error "campaign references a missing ad account"
  | .CreateAd arg, s =>
    if s.campaigns.any (fun c => decide (c.ID = arg.CampaignID)) then
      .ok { s with ads := s.ads ++
              [{ ID := arg.ID, Name := arg.Name, CampaignID := arg.CampaignID }] }
    else .error "ad references a missing campaign"
  | .CreateMetricCopyFrom args, s =>
    .ok { s with metrics := s.metrics ++ args.map (fun p =>
            { Name := p.Name, AdID := p.AdID, Timestamp := p.Timestamp, Value := p.Value }) }

/-- Modelled from the spec: `AggregateMetricsForCampaign` of the absent package
`adapters/db`, which "sums Value over all Metrics whose Ad belongs to the given
campaign" and returns a zero total for a campaign with no metrics. -/
def Store.total (s : Store) (campaignID : Int) : Int :=
  ((s.metrics.filter (fun m =>
      s.ads.any (fun a => decide (a.ID = m.AdID) && decide (a.CampaignID = campaignID)))).map
    (fun m => m.Value)).sum

/-- Modelled from the spec: the read operations of the absent package
`adapters/db` on a store state: all accounts, the campaigns of an account, the
total of a campaign; none of them fails. -/
def Store.queries (s : Store) : Queries Int :=
  { GetAdAccounts := .ok s.adAccounts
    GetCampaignsForAdAccount := fun id =>
      .ok (s.campaigns.filter (fun c => decide (c.AdAccountID = id)))
    AggregateMetricsForCampaign := fun id => .ok { TotalValue := s.total id } }

/-- A small store: account 0 owns campaigns 0 and 2, account 1 owns campaigns 1
and 3; campaign 2 has no ad, the ad of campaign 3 has no metric. -/
def exampleStore : Store :=
  { adAccounts := [{ ID := 0, Name := "AdAccount 0" }, { ID := 1, Name := "AdAccount 1" }]
    campaigns :=
      [{ ID := 0, Name := "Campaign 0", AdAccountID := 0 },
       { ID := 1, Name := "Campaign 1", AdAccountID := 1 },
       { ID := 2, Name := "Campaign 2", AdAccountID := 0 },
       { ID := 3, Name := "Campaign 3", AdAccountID := 1 }]
    ads :=
      [{ ID := 0, Name := "Ad 0", CampaignID := 0 },
       { ID := 1, Name := "Ad 1", CampaignID := 1 },
       { ID := 2, Name := "Ad 2", CampaignID := 3 }]
    metrics :=
      [{ Name := "Metric 0", AdID := 0, Timestamp := 1609459200, Value := 10 },
       { Name := "Metric 0", AdID := 0, Timestamp := 1609545600, Value := 10 },
       { Name := "Metric 0", AdID := 0, Timestamp := 1609632000, Value := 10 },
       { Name := "Metric 1", AdID := 1, Timestamp := 1609459200, Value := 10 },
       { Name := "Metric 1", AdID := 1, Timestamp := 1609545600, Value := 5 }] }

/-- A store with one account that owns 101 campaigns (IDs 0 to 100) and no ads. -/
def crowdedStore : Store :=
  { adAccounts := [{ ID := 0, Name := "AdAccount 0" }]
    campaigns := (List.range 101).map (fun i =>
      { ID := (i : Int), Name := "Campaign " ++ toString i, AdAccountID := 0 })
    ads := []
    metrics := [] }

/-! ## Invariants of the worker phases -/

theorem appendSeries_eq (metricName : String) (adId : Int) (nDays : Nat)
    (params : List CreateMetricCopyFromParams) :
    appendSeries metricName adId nDays params
      = params ++ (List.range nDays).map (fun (j : Nat) =>
          ({ Name := metricName, AdID := adId,
             Timestamp := int32 (1609459200 + (j : Int) * 86400), Value := 10 } :
            CreateMetricCopyFromParams)) := by
  unfold appendSeries
  induction nDays with
  | zero => simp
  | succ n ih => rw [List.range_succ, List.foldl_append, ih]; simp

theorem buildParams_eq (nMetrics nAds nDays : Nat) (hAds : 0 < nAds) :
    buildParams nMetrics nAds nDays = .ok (metricBatch nMetrics nAds nDays) := by
  have hne : nAds ≠ 0 := Nat.pos_iff_ne_zero.mp hAds
  unfold buildParams metricBatch
  induction nMetrics with
  | zero => rfl
  | succ n ih =>
    rw [List.range_succ, List.foldlM_append, ih]
    simp only [bind, Except.bind, List.foldlM_cons, List.foldlM_nil, if_neg hne, appendSeries_eq,
      List.flatMap_append, List.flatMap_cons, List.flatMap_nil, List.append_nil]
    rfl

theorem buildParams_zero_ads (nMetrics nDays : Nat) (hM : 0 < nMetrics) :
    buildParams nMetrics 0 nDays = .error Panic.divideByZero := by
  unfold buildParams
  obtain ⟨n, rfl⟩ : ∃ n, nMetrics = n + 1 := ⟨nMetrics - 1, by omega⟩
  rw [List.range_succ_eq_map]
  simp only [List.foldlM_cons, if_true]
  rfl

theorem int32_of_lt (x : Int) (h0 : 0 ≤ x) (h1 : x < 2147483648) : int32 x = x := by
  unfold int32
  omega

theorem createMetricsFastParallel_eq (fuel nMetrics nAds nDays nWorkers : Nat) (hAds : 0 < nAds) :
    createMetricsFastParallel fuel nMetrics nAds nDays nWorkers
      = distributeWork fuel (metricBatch nMetrics nAds nDays) nWorkers := by
  unfold createMetricsFastParallel
  rw [buildParams_eq _ _ _ hAds]

theorem call_of_panicked {σ : Type} (exec : StoreCall → σ → Except String σ) (r : Run σ)
    (c : StoreCall) (p : Panic) (h : r.panic = some p) : r.call exec c = r := by
  unfold Run.call
  rw [h]

theorem issueAll_of_panicked {σ : Type} (exec : StoreCall → σ → Except String σ)
    (cs : List StoreCall) (r : Run σ) (p : Panic) (h : r.panic = some p) :
    issueAll exec r cs = r := by
  unfold issueAll
  induction cs with
  | nil => rfl
  | cons c cs ih => rw [List.foldl_cons, call_of_panicked exec r c p h]; exact ih

theorem issueAll_append {σ : Type} (exec : StoreCall → σ → Except String σ) (r : Run σ)
    (cs ds : List StoreCall) :
    issueAll exec r (cs ++ ds) = issueAll exec (issueAll exec r cs) ds := by
  unfold issueAll
  rw [List.foldl_append]

theorem foldl_call_eq_issueAll {σ : Type} (exec : StoreCall → σ → Except String σ) (r : Run σ)
    (f : Nat → StoreCall) (n : Nat) :
    (List.range n).foldl (fun r i => r.call exec (f i)) r
      = issueAll exec r ((List.range n).map f) := by
  unfold issueAll
  rw [List.foldl_map]

/-- The shape of a run of `issueAll`: all calls succeeded, or the run stopped at
the first failing call. -/
theorem issueAll_cases {σ : Type} (exec : StoreCall → σ → Except String σ)
    (cs : List StoreCall) :
    ∀ r : Run σ, r.panic = none →
      ((issueAll exec r cs).panic = none ∧ (issueAll exec r cs).calls = r.calls ++ cs ∧
        replay exec r.state cs = .ok (issueAll exec r cs).state) ∨
      (∃ pre c rest e s', cs = pre ++ c :: rest ∧ replay exec r.state pre = .ok s' ∧
        exec c s' = .error e ∧ (issueAll exec r cs).calls = r.calls ++ (pre ++ [c]) ∧
        (issueAll exec r cs).panic = some (.store e) ∧ (issueAll exec r cs).state = s') := by
  induction cs with
  | nil =>
    intro r hr
    left
    exact ⟨hr, by simp [issueAll], rfl⟩
  | cons c cs ih =>
    intro r hr
    have hstep : issueAll exec r (c :: cs) = issueAll exec (r.call exec c) cs := rfl
    rw [hstep]
    cases hex : exec c r.state with
    | error e =>
      right
      have hcall : r.call exec c
          = { calls := r.calls ++ [c], state := r.state, panic := some (.store e) } := by
        unfold Run.call; rw [hr]; simp only [hex]
      rw [issueAll_of_panicked exec cs _ (.store e) (by rw [hcall])]
      refine ⟨[], c, cs, e, r.state, rfl, rfl, hex, ?_, ?_, ?_⟩
      all_goals (rw [hcall]; try rfl)
    | ok s1 =>
      have hcall : r.call exec c = { calls := r.calls ++ [c], state := s1, panic := none } := by
        unfold Run.call; rw [hr]; simp only [hex]
      have hrep : ∀ ds, replay exec r.state (c :: ds) = replay exec s1 ds := by
        intro ds
        unfold replay
        rw [List.foldlM_cons, hex]
        rfl
      rcases ih (r.call exec c) (by rw [hcall]) with ⟨h1, h2, h3⟩ | ⟨pre, d, rest, e, s2, h1, h2, h3, h4, h5, h6⟩
      · left
        refine ⟨h1, ?_, ?_⟩
        · rw [h2, hcall]; simp
        · rw [hrep, ← h3, hcall]
      · right
        refine ⟨c :: pre, d, rest, e, s2, by rw [h1]; rfl, ?_, h3, ?_, h5, h6⟩
        · rw [hrep, ← h2, hcall]
        · rw [h4, hcall]; simp

theorem generateTestData_creation {σ : Type} (exec : StoreCall → σ → Except String σ)
    (nAdAccounts nCampaigns nAds nMetrics nDays : Nat) (s : σ)
    (hA : 0 < nAdAccounts) (hC : 0 < nCampaigns) :
    generateTestData exec nAdAccounts nCampaigns nAds nMetrics nDays s
      = createMetricsFast exec
          (issueAll exec { calls := [], state := s, panic := none }
            (creationSequence nAdAccounts nCampaigns nAds)) nMetrics nAds nDays := by
  have hA0 : nAdAccounts ≠ 0 := by omega
  have hC0 : nCampaigns ≠ 0 := by omega
  unfold generateTestData creationSequence
  simp only [if_neg hA0, if_neg hC0]
  rw [issueAll_append, issueAll_append, issueAll_append]
  rw [← foldl_call_eq_issueAll, ← foldl_call_eq_issueAll, ← foldl_call_eq_issueAll]
  rfl

theorem getElem?_append_map_range {β : Type} (l1 rest : List β) (f : Nat → β) (n i k : Nat)
    (hi : i < n) (hk : k = l1.length + i) :
    (l1 ++ (List.range n).map f ++ rest)[k]? = some (f i) := by
  subst hk
  rw [List.getElem?_append_left (by simp; omega), List.getElem?_append_right (by omega)]
  simp [hi]

theorem creationSequence_length (nAdAccounts nCampaigns nAds : Nat) :
    (creationSequence nAdAccounts nCampaigns nAds).length
      = 4 + nAdAccounts + nCampaigns + nAds := by
  simp only [creationSequence, List.length_append, List.length_map, List.length_range,
    List.length_cons, List.length_nil]

theorem creationSequence_account (nAdAccounts nCampaigns nAds i : Nat) (hi : i < nAdAccounts) :
    (creationSequence nAdAccounts nCampaigns nAds)[4 + i]?
      = some (.CreateAdAccount (adAccountParams i)) := by
  unfold creationSequence
  rw [List.append_assoc _ (List.map _ (List.range nCampaigns))]
  exact getElem?_append_map_range
    [StoreCall.ClearMetrics, StoreCall.ClearAds, StoreCall.ClearCampaigns,
      StoreCall.ClearAdAccounts] _
    (fun i => StoreCall.CreateAdAccount (adAccountParams i)) _ i _ hi rfl

theorem creationSequence_campaign (nAdAccounts nCampaigns nAds i : Nat) (hi : i < nCampaigns) :
    (creationSequence nAdAccounts nCampaigns nAds)[4 + nAdAccounts + i]?
      = some (.CreateCampaign (campaignParams nAdAccounts i)) := by
  unfold creationSequence
  exact getElem?_append_map_range
    ([StoreCall.ClearMetrics, StoreCall.ClearAds, StoreCall.ClearCampaigns,
      StoreCall.ClearAdAccounts]
      ++ (List.range nAdAccounts).map (fun i => StoreCall.CreateAdAccount (adAccountParams i))) _
    (fun i => StoreCall.CreateCampaign (campaignParams nAdAccounts i)) _ i _ hi
    (by simp only [List.length_append, List.length_map, List.length_range,
      List.length_cons, List.length_nil])

theorem creationSequence_ad (nAdAccounts nCampaigns nAds i : Nat) (hi : i < nAds) :
    (creationSequence nAdAccounts nCampaigns nAds)[4 + nAdAccounts + nCampaigns + i]?
      = some (.CreateAd (adParams nCampaigns i)) := by
  have h := getElem?_append_map_range
    ([StoreCall.ClearMetrics, StoreCall.ClearAds, StoreCall.ClearCampaigns,
      StoreCall.ClearAdAccounts]
      ++ (List.range nAdAccounts).map (fun i => StoreCall.CreateAdAccount (adAccountParams i))
      ++ (List.range nCampaigns).map
          (fun i => StoreCall.CreateCampaign (campaignParams nAdAccounts i))) []
    (fun i => StoreCall.CreateAd (adParams nCampaigns i)) nAds i
    (4 + nAdAccounts + nCampaigns + i) hi
    (by simp only [List.length_append, List.length_map, List.length_range,
      List.length_cons, List.length_nil])
  rw [List.append_nil] at h
  exact h

theorem replay_append {σ : Type} (exec : StoreCall → σ → Except String σ) (s : σ)
    (cs ds : List StoreCall) :
    replay exec s (cs ++ ds)
      = (match replay exec s cs with
         | .ok s1 => replay exec s1 ds
         | .error e => .error e) := by
  unfold replay
  rw [List.foldlM_append]
  cases List.foldlM (fun s c => exec c s) s cs <;> rfl

theorem replay_take_ok {σ : Type} (exec : StoreCall → σ → Except String σ) (s s1 : σ)
    (cs : List StoreCall) (k : Nat) (h : replay exec s cs = .ok s1) :
    ∃ s2, replay exec s (cs.take k) = .ok s2 := by
  have hsplit := replay_append exec s (cs.take k) (cs.drop k)
  rw [List.take_append_drop, h] at hsplit
  cases hk : replay exec s (cs.take k) with
  | ok s2 => exact ⟨s2, rfl⟩
  | error e => rw [hk] at hsplit; cases hsplit

/-- The shape of the trace of `generateTestData`: calls that all succeeded,
followed by at most one more call, the whole a prefix of the fixed sequence. -/
theorem generateTestData_shape {σ : Type} (exec : StoreCall → σ → Except String σ)
    (nAdAccounts nCampaigns nAds nMetrics nDays : Nat) (s : σ)
    (hA : 0 < nAdAccounts) (hC : 0 < nCampaigns) :
    ∃ good last,
      (generateTestData exec nAdAccounts nCampaigns nAds nMetrics nDays s).calls = good ++ last ∧
      last.length ≤ 1 ∧ (∃ s1, replay exec s good = .ok s1) ∧
      good ++ last <+: fullSequence nAdAccounts nCampaigns nAds nMetrics nDays := by
  rw [generateTestData_creation exec _ _ _ _ _ s hA hC]
  have h := issueAll_cases exec (creationSequence nAdAccounts nCampaigns nAds)
    { calls := [], state := s, panic := none } rfl
  simp only [List.nil_append] at h
  rcases h with ⟨h1, h2, h3⟩ | ⟨pre, c, rest, e, s1, h1, h2, _, h4, h5, _⟩
  · -- the creation phase went through
    unfold createMetricsFast
    rw [h1]
    simp only
    cases hb : buildParams nMetrics nAds nDays with
    | error p =>
      refine ⟨creationSequence nAdAccounts nCampaigns nAds, [], ?_, by simp, ⟨_, h3⟩, ?_⟩
      · simp only [Run.die, h1, List.append_nil]
        exact h2
      · rw [List.append_nil]; exact List.prefix_append _ _
    | ok params =>
      have hparams : params = metricBatch nMetrics nAds nDays := by
        rcases Nat.eq_zero_or_pos nAds with hz | hpos
        · subst hz
          rcases Nat.eq_zero_or_pos nMetrics with hm | hm
          · subst hm
            have : buildParams 0 0 nDays = .ok [] := rfl
            rw [this] at hb
            cases hb
            rfl
          · rw [buildParams_zero_ads _ _ hm] at hb
            cases hb
        · rw [buildParams_eq _ _ _ hpos] at hb
          cases hb
          rfl
      subst hparams
      refine ⟨creationSequence nAdAccounts nCampaigns nAds,
        [.CreateMetricCopyFrom (metricBatch nMetrics nAds nDays)], ?_, by simp, ⟨_, h3⟩, ?_⟩
      · unfold Run.call
        rw [h1]
        simp only
        cases exec _ _ <;> simp only [h2]
      · exact List.prefix_refl _
  · -- the creation phase stopped at a failing call
    unfold createMetricsFast
    rw [h5]
    refine ⟨pre, [c], h4, by simp, ⟨s1, h2⟩, ?_⟩
    unfold fullSequence
    rw [h1]
    exact ⟨rest ++ [.CreateMetricCopyFrom (metricBatch nMetrics nAds nDays)], by simp⟩

/-- A call that was issued is the call of the fixed sequence at its position. -/
theorem generateTestData_getElem? {σ : Type} (exec : StoreCall → σ → Except String σ)
    (nAdAccounts nCampaigns nAds nMetrics nDays : Nat) (s : σ)
    (hA : 0 < nAdAccounts) (hC : 0 < nCampaigns) (k : Nat)
    (hk : k < (generateTestData exec nAdAccounts nCampaigns nAds nMetrics nDays s).calls.length) :
    (generateTestData exec nAdAccounts nCampaigns nAds nMetrics nDays s).calls[k]?
      = (fullSequence nAdAccounts nCampaigns nAds nMetrics nDays)[k]? := by
  obtain ⟨good, last, h1, _, _, h4⟩ :=
    generateTestData_shape exec nAdAccounts nCampaigns nAds nMetrics nDays s hA hC
  rw [← h1] at h4
  have := List.prefix_iff_eq_take.mp h4
  rw [this, List.getElem?_take_of_lt hk]

/-- Every call before the last one issued has succeeded. -/
theorem generateTestData_earlier_ok {σ : Type} (exec : StoreCall → σ → Except String σ)
    (nAdAccounts nCampaigns nAds nMetrics nDays : Nat) (s : σ)
    (hA : 0 < nAdAccounts) (hC : 0 < nCampaigns) (k : Nat)
    (hk : k < (generateTestData exec nAdAccounts nCampaigns nAds nMetrics nDays s).calls.length) :
    ∃ s1, replay exec s
      ((generateTestData exec nAdAccounts nCampaigns nAds nMetrics nDays s).calls.take k)
        = .ok s1 := by
  obtain ⟨good, last, h1, h2, ⟨s1, h3⟩, _⟩ :=
    generateTestData_shape exec nAdAccounts nCampaigns nAds nMetrics nDays s hA hC
  rw [h1] at hk ⊢
  rw [List.length_append] at hk
  rw [List.take_append_of_le_length (by omega)]
  exact replay_take_ok exec s s1 good k h3

/-- On a store that accepts every call the whole creation phase is issued. -/
theorem generateTestData_reaches_all {σ : Type} (exec : StoreCall → σ → Except String σ)
    (nAdAccounts nCampaigns nAds nMetrics nDays : Nat) (s : σ)
    (hA : 0 < nAdAccounts) (hC : 0 < nCampaigns)
    (hexec : ∀ c s0, ∃ s1, exec c s0 = .ok s1) :
    ∃ rest, (generateTestData exec nAdAccounts nCampaigns nAds nMetrics nDays s).calls
      = creationSequence nAdAccounts nCampaigns nAds ++ rest := by
  rw [generateTestData_creation exec _ _ _ _ _ s hA hC]
  have h := issueAll_cases exec (creationSequence nAdAccounts nCampaigns nAds)
    { calls := [], state := s, panic := none } rfl
  simp only [List.nil_append] at h
  rcases h with ⟨h1, h2, _⟩ | ⟨_, c, _, e, s1, _, _, h3, _, _, _⟩
  · unfold createMetricsFast
    rw [h1]
    simp only
    cases buildParams nMetrics nAds nDays with
    | error p => exact ⟨[], by simp only [Run.die, h1, List.append_nil]; exact h2⟩
    | ok params =>
      refine ⟨[.CreateMetricCopyFrom params], ?_⟩
      unfold Run.call
      rw [h1]
      simp only
      cases exec _ _ <;> simp only [h2]
  · obtain ⟨s2, h4⟩ := hexec c s1
    rw [h4] at h3
    cases h3

/-- C6 (amended): for `nAdAccounts > 0` and `nCampaigns > 0`, whenever the run of
`generateTestData` reaches the creation of campaign `i < nCampaigns`, that call
creates the campaign with ID `int32(i)` and AdAccountID `int32(i mod nAdAccounts)`,
the account with that ID was created by an earlier call of the same run, and
every earlier call succeeded; likewise ad `i < nAds` is created with ID
`int32(i)` and CampaignID `int32(i mod nCampaigns)`, the ID of a campaign
created earlier in the run.  The IDs are the indices themselves (`i`,
`i mod nAdAccounts`, `i mod nCampaigns`) whenever `nCampaigns <= 2^31`, resp.
`nAds <= 2^31`.  On a store that accepts every call, every creation is reached. -/
theorem generateTestData_references {σ : Type} (exec : StoreCall → σ → Except String σ)
    (nAdAccounts nCampaigns nAds nMetrics nDays : Nat) (s : σ)
    (hA : 0 < nAdAccounts) (hC : 0 < nCampaigns) :
    (∀ i : Nat, i < nCampaigns →
      4 + nAdAccounts + i
        < (generateTestData exec nAdAccounts nCampaigns nAds nMetrics nDays s).calls.length →
      (generateTestData exec nAdAccounts nCampaigns nAds nMetrics nDays s).calls[4 + nAdAccounts + i]?
        = some (.CreateCampaign
            { ID := int32 (i : Int), Name := "Campaign " ++ toString i,
              AdAccountID := int32 ((i % nAdAccounts : Nat) : Int) }) ∧
      (generateTestData exec nAdAccounts nCampaigns nAds nMetrics nDays s).calls[4 + i % nAdAccounts]?
        = some (.CreateAdAccount
            { ID := int32 ((i % nAdAccounts : Nat) : Int),
              Name := "AdAccount " ++ toString (i % nAdAccounts) }) ∧
      4 + i % nAdAccounts < 4 + nAdAccounts + i ∧
      (∃ s1, replay exec s
        ((generateTestData exec nAdAccounts nCampaigns nAds nMetrics nDays s).calls.take
          (4 + nAdAccounts + i)) = .ok s1) ∧
      (nCampaigns ≤ 2147483648 →
        int32 (i : Int) = (i : Int) ∧
        int32 ((i % nAdAccounts : Nat) : Int) = ((i % nAdAccounts : Nat) : Int))) ∧
    (∀ i : Nat, i < nAds →
      4 + nAdAccounts + nCampaigns + i
        < (generateTestData exec nAdAccounts nCampaigns nAds nMetrics nDays s).calls.length →
      (generateTestData exec nAdAccounts nCampaigns nAds nMetrics nDays s).calls[4 + nAdAccounts + nCampaigns + i]?
        = some (.CreateAd
            { ID := int32 (i : Int), Name := "Ad " ++ toString i,
              CampaignID := int32 ((i % nCampaigns : Nat) : Int) }) ∧
      (generateTestData exec nAdAccounts nCampaigns nAds nMetrics nDays s).calls[4 + nAdAccounts + i % nCampaigns]?
        = some (.CreateCampaign
            { ID := int32 ((i % nCampaigns : Nat) : Int),
              Name := "Campaign " ++ toString (i % nCampaigns),
              AdAccountID := int32 ((i % nCampaigns % nAdAccounts : Nat) : Int) }) ∧
      4 + nAdAccounts + i % nCampaigns < 4 + nAdAccounts + nCampaigns + i ∧
      (∃ s1, replay exec s
        ((generateTestData exec nAdAccounts nCampaigns nAds nMetrics nDays s).calls.take
          (4 + nAdAccounts + nCampaigns + i)) = .ok s1) ∧
      (nAds ≤ 2147483648 →
        int32 (i : Int) = (i : Int) ∧
        int32 ((i % nCampaigns : Nat) : Int) = ((i % nCampaigns : Nat) : Int))) ∧
    ((∀ c s0, ∃ s1, exec c s0 = .ok s1) →
      4 + nAdAccounts + nCampaigns + nAds
        ≤ (generateTestData exec nAdAccounts nCampaigns nAds nMetrics nDays s).calls.length) := by
  have hlen := creationSequence_length nAdAccounts nCampaigns nAds
  have hfull : ∀ k, k < 4 + nAdAccounts + nCampaigns + nAds →
      (fullSequence nAdAccounts nCampaigns nAds nMetrics nDays)[k]?
        = (creationSequence nAdAccounts nCampaigns nAds)[k]? := by
    intro k hk
    unfold fullSequence
    rw [List.getElem?_append_left (by omega)]
  refine ⟨?_, ?_, ?_⟩
  · intro i hi hreach
    have hmod := Nat.mod_lt i hA
    have hmodle := Nat.mod_le i nAdAccounts
    refine ⟨?_, ?_, by omega, ?_, ?_⟩
    · rw [generateTestData_getElem? exec _ _ _ _ _ s hA hC _ hreach, hfull _ (by omega),
        creationSequence_campaign _ _ _ i hi]
      rfl
    · rw [generateTestData_getElem? exec _ _ _ _ _ s hA hC _ (by omega), hfull _ (by omega),
        creationSequence_account _ _ _ _ hmod]
      rfl
    · exact generateTestData_earlier_ok exec _ _ _ _ _ s hA hC _ hreach
    · intro hb
      exact ⟨int32_of_lt _ (by omega) (by omega), int32_of_lt _ (by omega) (by omega)⟩
  · intro i hi hreach
    have hmod := Nat.mod_lt i hC
    have hmodle := Nat.mod_le i nCampaigns
    refine ⟨?_, ?_, by omega, ?_, ?_⟩
    · rw [generateTestData_getElem? exec _ _ _ _ _ s hA hC _ hreach, hfull _ (by omega),
        creationSequence_ad _ _ _ i hi]
      rfl
    · rw [generateTestData_getElem? exec _ _ _ _ _ s hA hC _ (by omega), hfull _ (by omega),
        creationSequence_campaign _ _ _ _ hmod]
      rfl
    · exact generateTestData_earlier_ok exec _ _ _ _ _ s hA hC _ hreach
    · intro hb
      exact ⟨int32_of_lt _ (by omega) (by omega), int32_of_lt _ (by omega) (by omega)⟩
  · intro hexec
    obtain ⟨rest, h⟩ := generateTestData_reaches_all exec _ _ _ nMetrics nDays s hA hC hexec
    rw [h, List.length_append, hlen]
    omega

/-- C6, evaluated on a store that accepts every call (2 accounts, 3 campaigns,
4 ads): campaign 2 belongs to account 0, ad 3 to campaign 0, both created earlier. -/
theorem generateTestData_references_witness :
    ((generateTestData acceptAll 2 3 4 2 3 ()).calls[4 + 2 + 2]?
        = some (.CreateCampaign { ID := 2, Name := "Campaign 2", AdAccountID := 0 }) ∧
      (generateTestData acceptAll 2 3 4 2 3 ()).calls[4 + 2 % 2]?
        = some (.CreateAdAccount { ID := 0, Name := "AdAccount 0" })) ∧
    ((generateTestData acceptAll 2 3 4 2 3 ()).calls[4 + 2 + 3 + 3]?
        = some (.CreateAd { ID := 3, Name := "Ad 3", CampaignID := 0 }) ∧
      (generateTestData acceptAll 2 3 4 2 3 ()).calls[4 + 2 + 3 % 3]?
        = some (.CreateCampaign { ID := 0, Name := "Campaign 0", AdAccountID := 0 })) ∧
    4 + 2 + 3 + 4 ≤ (generateTestData acceptAll 2 3 4 2 3 ()).calls.length := by
  obtain ⟨hcamp, had, hall⟩ :=
    generateTestData_references acceptAll 2 3 4 2 3 () (by decide) (by decide)
  have hlen := hall (fun _ u => ⟨u, rfl⟩)
  obtain ⟨h1, h2, _, _, h5⟩ := hcamp 2 (by decide) (by omega)
  obtain ⟨k1, k2, _, _, k5⟩ := had 3 (by decide) (by omega)
  refine ⟨⟨?_, ?_⟩, ⟨?_, ?_⟩, hlen⟩
  · rw [h1]; rfl
  · rw [h2]; rfl
  · rw [k1]; rfl
  · rw [k2]; rfl

/-- C6 fails as stated: with `nCampaigns = 2^31 + 1` (one account, no ads, no
metrics) on a store that accepts every call, the campaign created at index 2^31
has the ID -2^31, not 2^31. -/
theorem generateTestData_campaign_id_wraps :
    (generateTestData acceptAll 1 2147483649 0 0 0 ()).calls[4 + 1 + 2147483648]?
        = some (.CreateCampaign
            { ID := -2147483648, Name := "Campaign 2147483648", AdAccountID := 0 }) ∧
      (-2147483648 : Int) ≠ 2147483648 := by
  obtain ⟨rest, h⟩ := generateTestData_reaches_all acceptAll 1 2147483649 0 0 0 ()
    (by decide) (by decide) (fun _ u => ⟨u, rfl⟩)
  refine ⟨?_, by decide⟩
  rw [h, List.getElem?_append_left (by rw [creationSequence_length]; omega),
    creationSequence_campaign 1 2147483649 0 2147483648 (by decide)]
  decide

/-! ## Theorems: Go maps -/

theorem GoMap.get?_filter_ne {V : Type} (m : GoMap V) (k k1 : Int) (h : k ≠ k1) :
    GoMap.get? (m.filter (fun e => decide (e.1 ≠ k))) k1 = GoMap.get? m k1 := by
  induction m with
  | nil => rfl
  | cons e rest ih =>
    obtain ⟨a, v⟩ := e
    by_cases ha : a = k
    · subst ha
      rw [List.filter_cons_of_neg (by simp)]
      rw [ih]
      simp only [GoMap.get?, if_neg h]
    · rw [List.filter_cons_of_pos (by simpa using ha)]
      by_cases hk : a = k1
      · simp only [GoMap.get?, if_pos hk]
      · simp only [GoMap.get?, if_neg hk]
        exact ih

theorem GoMap.get?_set {V : Type} (m : GoMap V) (k k1 : Int) (v : V) :
    GoMap.get? (m.set k v) k1 = if k = k1 then some v else GoMap.get? m k1 := by
  unfold GoMap.set
  by_cases h : k = k1
  · simp [GoMap.get?, h]
  · simp only [GoMap.get?, if_neg h]
    exact GoMap.get?_filter_ne m k k1 h

theorem GoMap.mem_keys_iff {V : Type} (m : GoMap V) (k : Int) :
    k ∈ m.keys ↔ ∃ v, GoMap.get? m k = some v := by
  induction m with
  | nil => simp [GoMap.keys, GoMap.get?]
  | cons e rest ih =>
    obtain ⟨a, v⟩ := e
    by_cases ha : a = k
    · subst ha
      simp [GoMap.keys, GoMap.get?]
    · have hk : k ≠ a := fun h => ha h.symm
      have ih1 : k ∈ List.map Prod.fst rest ↔ ∃ v, GoMap.get? rest k = some v := ih
      simp only [GoMap.keys, List.map_cons, List.mem_cons, GoMap.get?, if_neg ha, hk, false_or]
      exact ih1

theorem GoMap.keys_set_nodup {V : Type} (m : GoMap V) (k : Int) (v : V)
    (h : m.keys.Nodup) : (m.set k v).keys.Nodup := by
  unfold GoMap.set GoMap.keys
  rw [List.map_cons, List.nodup_cons]
  constructor
  · intro hmem
    rw [List.mem_map] at hmem
    obtain ⟨e, he, hek⟩ := hmem
    have := (List.mem_filter.mp he).2
    simp only [decide_eq_true_eq] at this
    exact this hek
  · exact List.Nodup.sublist (List.Sublist.map _ (List.filter_sublist m)) h

theorem aggregateCampaigns_spec {T F : Type} (float64 : T → F) (q : Queries T) :
    ∀ (campaigns : List Campaign) (m : GoMap F),
      (∀ c ∈ campaigns, ∃ row, q.AggregateMetricsForCampaign c.ID = .ok row) →
      ∃ m1, aggregateCampaigns float64 q m campaigns = .ok m1 ∧
        (∀ id, GoMap.get? m1 id
          = if id ∈ campaigns.map (fun c => c.ID) then q.totalOf float64 id
            else GoMap.get? m id) ∧
        (m.keys.Nodup → m1.keys.Nodup) := by
  intro campaigns
  induction campaigns with
  | nil =>
    intro m _
    exact ⟨m, rfl, by simp, id⟩
  | cons c cs ih =>
    intro m hall
    obtain ⟨row, hrow⟩ := hall c (List.mem_cons_self c cs)
    obtain ⟨m1, h1, h2, h3⟩ := ih (m.set c.ID (float64 row.TotalValue))
      (fun d hd => hall d (List.mem_cons_of_mem c hd))
    refine ⟨m1, ?_, ?_, fun hn => h3 (GoMap.keys_set_nodup m _ _ hn)⟩
    · unfold aggregateCampaigns at h1 ⊢
      rw [List.foldlM_cons, hrow]
      exact h1
    · intro id
      rw [h2 id, GoMap.get?_set]
      have htot : q.totalOf float64 c.ID = some (float64 row.TotalValue) := by
        unfold Queries.totalOf; rw [hrow]
      by_cases hmem : id ∈ cs.map (fun c => c.ID)
      · simp [hmem]
      · by_cases hc : c.ID = id
        · subst hc
          simp [hmem, htot]
        · have hc2 : ¬ id = c.ID := fun h => hc h.symm
          simp [hmem, hc, hc2]

theorem aggregateAccounts_spec {T F : Type} (float64 : T → F) (q : Queries T) :
    ∀ (adAccounts : List AdAccount) (m : GoMap F),
      (∀ a ∈ adAccounts, ∃ cs, q.GetCampaignsForAdAccount a.ID = .ok cs) →
      (∀ c ∈ q.walk adAccounts, ∃ row, q.AggregateMetricsForCampaign c.ID = .ok row) →
      ∃ m1, aggregateAccounts float64 q m adAccounts = .ok m1 ∧
        (∀ id, GoMap.get? m1 id
          = if id ∈ (q.walk adAccounts).map (fun c => c.ID) then q.totalOf float64 id
            else GoMap.get? m id) ∧
        (m.keys.Nodup → m1.keys.Nodup) := by
  intro adAccounts
  induction adAccounts with
  | nil =>
    intro m _ _
    exact ⟨m, rfl, by simp [Queries.walk], id⟩
  | cons a rest ih =>
    intro m hcamp hagg
    obtain ⟨cs, hcs⟩ := hcamp a (List.mem_cons_self a rest)
    have hof : q.campaignsOf a.ID = cs := by unfold Queries.campaignsOf; rw [hcs]
    have hwalk : q.walk (a :: rest) = cs ++ q.walk rest := by
      simp [Queries.walk, hof]
    rw [hwalk] at hagg
    obtain ⟨m1, h1, h2, h3⟩ := aggregateCampaigns_spec float64 q cs m
      (fun c hc => hagg c (List.mem_append_left _ hc))
    obtain ⟨m2, k1, k2, k3⟩ := ih m1
      (fun b hb => hcamp b (List.mem_cons_of_mem a hb))
      (fun c hc => hagg c (List.mem_append_right _ hc))
    refine ⟨m2, ?_, ?_, fun hn => k3 (h3 hn)⟩
    · unfold aggregateAccounts at k1 ⊢
      rw [List.foldlM_cons, hcs]
      simp only [h1]
      exact k1
    · intro id
      rw [k2 id, h2 id, hwalk, List.map_append]
      by_cases hr : id ∈ (q.walk rest).map (fun c => c.ID)
      · simp [hr]
      · by_cases hc : id ∈ cs.map (fun c => c.ID)
        · simp [hr, hc]
        · simp [hr, hc]

theorem Queries.mem_walk {T : Type} (q : Queries T) (adAccounts : List AdAccount)
    (c : Campaign) :
    c ∈ q.walk adAccounts ↔ ∃ a ∈ adAccounts, c ∈ q.campaignsOf a.ID := by
  simp [Queries.walk, List.mem_flatMap]

/-- The mapping of `aggregateDataNaive` when the store answers every query. -/
theorem aggregateDataNaive_spec {T F : Type} (float64 : T → F) (q : Queries T)
    (adAccounts : List AdAccount) (hAcc : q.GetAdAccounts = .ok adAccounts)
    (hCamp : ∀ a ∈ adAccounts, ∃ cs, q.GetCampaignsForAdAccount a.ID = .ok cs)
    (hAgg : ∀ c ∈ q.walk adAccounts, ∃ row, q.AggregateMetricsForCampaign c.ID = .ok row) :
    ∃ m, aggregateDataNaive float64 q = .ok m ∧
      (∀ id, GoMap.get? m id
        = if id ∈ (q.walk adAccounts).map (fun c => c.ID) then q.totalOf float64 id
          else none) ∧
      m.keys.Nodup ∧
      m.length = ((q.walk adAccounts).map (fun c => c.ID)).dedup.length := by
  obtain ⟨m, h1, h2, h3⟩ := aggregateAccounts_spec float64 q adAccounts [] hCamp hAgg
  have hget : ∀ id, GoMap.get? m id
      = if id ∈ (q.walk adAccounts).map (fun c => c.ID) then q.totalOf float64 id
        else none := by
    intro id
    rw [h2 id]
    rfl
  refine ⟨m, ?_, hget, h3 List.nodup_nil, ?_⟩
  · unfold aggregateDataNaive
    rw [hAcc]
    exact h1
  · have hperm : m.keys.Perm ((q.walk adAccounts).map (fun c => c.ID)).dedup := by
      rw [List.perm_ext_iff_of_nodup (h3 List.nodup_nil) (List.nodup_dedup _)]
      intro id
      rw [GoMap.mem_keys_iff, List.mem_dedup, hget id]
      constructor
      · rintro ⟨v, hv⟩
        by_contra hmem
        rw [if_neg hmem] at hv
        cases hv
      · intro hmem
        rw [if_pos hmem]
        obtain ⟨c, hc, rfl⟩ := List.mem_map.mp hmem
        obtain ⟨row, hrow⟩ := hAgg c hc
        exact ⟨float64 row.TotalValue, by unfold Queries.totalOf; rw [hrow]⟩
    have := hperm.length_eq
    simpa [GoMap.keys] using this

/-- C1: when the store answers the queries (the accounts `adAccounts`, for each
account its campaigns `campaignsOf`, for each of these campaigns the total
`totalOf`), `aggregateDataNaive` returns a mapping whose keys are exactly the IDs
of the campaigns of all accounts, without repetition, and which maps each such
ID to (the float64 of) the total returned for it; a campaign whose returned
total is 0 is present with 0. -/
theorem aggregateDataNaive_mapping {T F : Type} [Zero T] (float64 : T → F) (q : Queries T)
    (adAccounts : List AdAccount) (campaignsOf : Int → List Campaign) (totalOf : Int → T)
    (hAcc : q.GetAdAccounts = .ok adAccounts)
    (hCamp : ∀ a ∈ adAccounts, q.GetCampaignsForAdAccount a.ID = .ok (campaignsOf a.ID))
    (hAgg : ∀ a ∈ adAccounts, ∀ c ∈ campaignsOf a.ID,
      q.AggregateMetricsForCampaign c.ID = .ok { TotalValue := totalOf c.ID }) :
    ∃ m, aggregateDataNaive float64 q = .ok m ∧
      (∀ id, id ∈ m.keys ↔ ∃ a ∈ adAccounts, ∃ c ∈ campaignsOf a.ID, c.ID = id) ∧
      (∀ a ∈ adAccounts, ∀ c ∈ campaignsOf a.ID,
        GoMap.get? m c.ID = some (float64 (totalOf c.ID))) ∧
      (∀ a ∈ adAccounts, ∀ c ∈ campaignsOf a.ID, totalOf c.ID = 0 →
        GoMap.get? m c.ID = some (float64 0)) ∧
      m.keys.Nodup ∧
      m.length = ((adAccounts.flatMap (fun a => campaignsOf a.ID)).map
        (fun c => c.ID)).dedup.length := by
  have hof : ∀ a ∈ adAccounts, q.campaignsOf a.ID = campaignsOf a.ID := by
    intro a ha
    unfold Queries.campaignsOf
    rw [hCamp a ha]
  have hwalk : ∀ c, c ∈ q.walk adAccounts ↔ ∃ a ∈ adAccounts, c ∈ campaignsOf a.ID := by
    intro c
    rw [Queries.mem_walk]
    constructor
    · rintro ⟨a, ha, hc⟩
      exact ⟨a, ha, hof a ha ▸ hc⟩
    · rintro ⟨a, ha, hc⟩
      exact ⟨a, ha, (hof a ha).symm ▸ hc⟩
  have hwalkeq : q.walk adAccounts = adAccounts.flatMap (fun a => campaignsOf a.ID) := by
    unfold Queries.walk
    exact List.flatMap_congr hof
  obtain ⟨m, h1, h2, h3, hlen⟩ := aggregateDataNaive_spec float64 q adAccounts hAcc
    (fun a ha => ⟨_, hCamp a ha⟩)
    (fun c hc => by
      obtain ⟨a, ha, hca⟩ := (hwalk c).mp hc
      exact ⟨_, hAgg a ha c hca⟩)
  have hval : ∀ a ∈ adAccounts, ∀ c ∈ campaignsOf a.ID,
      GoMap.get? m c.ID = some (float64 (totalOf c.ID)) := by
    intro a ha c hc
    have hmem : c.ID ∈ (q.walk adAccounts).map (fun c => c.ID) :=
      List.mem_map.mpr ⟨c, (hwalk c).mpr ⟨a, ha, hc⟩, rfl⟩
    rw [h2 c.ID, if_pos hmem]
    unfold Queries.totalOf
    rw [hAgg a ha c hc]
  have hkeys : ∀ id, id ∈ m.keys ↔ ∃ a ∈ adAccounts, ∃ c ∈ campaignsOf a.ID, c.ID = id := by
    intro id
    rw [GoMap.mem_keys_iff]
    constructor
    · rintro ⟨v, hv⟩
      rw [h2 id] at hv
      by_cases hmem : id ∈ (q.walk adAccounts).map (fun c => c.ID)
      · obtain ⟨c, hc, rfl⟩ := List.mem_map.mp hmem
        obtain ⟨a, ha, hca⟩ := (hwalk c).mp hc
        exact ⟨a, ha, c, hca, rfl⟩
      · rw [if_neg hmem] at hv
        cases hv
    · rintro ⟨a, ha, c, hc, rfl⟩
      exact ⟨_, hval a ha c hc⟩
  refine ⟨m, h1, hkeys, hval, ?_, h3, ?_⟩
  · intro a ha c hc hz
    rw [hval a ha c hc, hz]
  · rw [hlen, hwalkeq]

/-- C1, evaluated on the example store: the mapping has the four campaign IDs as
keys; campaign 2 (no ad) and campaign 3 (an ad without metrics) are present
with total 0. -/
theorem aggregateDataNaive_mapping_witness :
    ∃ m, aggregateDataNaive (fun t : Int => t) exampleStore.queries = .ok m ∧
      (∀ id, id ∈ m.keys ↔ id ∈ [0, 2, 1, 3]) ∧
      GoMap.get? m 0 = some 30 ∧ GoMap.get? m 1 = some 15 ∧
      GoMap.get? m 2 = some 0 ∧ GoMap.get? m 3 = some 0 ∧ m.length = 4 := by
  obtain ⟨m, h1, h2, h3, h4, _, h6⟩ :=
    aggregateDataNaive_mapping (fun t : Int => t) exampleStore.queries
      exampleStore.adAccounts
      (fun id => exampleStore.campaigns.filter (fun c => decide (c.AdAccountID = id)))
      exampleStore.total rfl (fun _ _ => rfl) (fun _ _ _ _ => rfl)
  refine ⟨m, h1, ?_, ?_, ?_, ?_, ?_, ?_⟩
  · intro id
    rw [h2 id]
    constructor
    · rintro ⟨a, ha, c, hc, rfl⟩
      simp only [exampleStore, List.mem_cons, List.mem_singleton, List.not_mem_nil,
        or_false] at ha
      rcases ha with rfl | rfl
      · have : c ∈ [({ ID := 0, Name := "Campaign 0", AdAccountID := 0 } : Campaign),
            { ID := 2, Name := "Campaign 2", AdAccountID := 0 }] := hc
        simp only [List.mem_cons, List.mem_singleton, List.not_mem_nil, or_false] at this
        rcases this with rfl | rfl <;> decide
      · have : c ∈ [({ ID := 1, Name := "Campaign 1", AdAccountID := 1 } : Campaign),
            { ID := 3, Name := "Campaign 3", AdAccountID := 1 }] := hc
        simp only [List.mem_cons, List.mem_singleton, List.not_mem_nil, or_false] at this
        rcases this with rfl | rfl <;> decide
    · intro hid
      simp only [List.mem_cons, List.mem_singleton, List.not_mem_nil, or_false] at hid
      rcases hid with rfl | rfl | rfl | rfl
      · exact ⟨{ ID := 0, Name := "AdAccount 0" }, by decide,
          { ID := 0, Name := "Campaign 0", AdAccountID := 0 }, by decide, rfl⟩
      · exact ⟨{ ID := 0, Name := "AdAccount 0" }, by decide,
          { ID := 2, Name := "Campaign 2", AdAccountID := 0 }, by decide, rfl⟩
      · exact ⟨{ ID := 1, Name := "AdAccount 1" }, by decide,
          { ID := 1, Name := "Campaign 1", AdAccountID := 1 }, by decide, rfl⟩
      · exact ⟨{ ID := 1, Name := "AdAccount 1" }, by decide,
          { ID := 3, Name := "Campaign 3", AdAccountID := 1 }, by decide, rfl⟩
  · exact h3 { ID := 0, Name := "AdAccount 0" } (by decide)
      { ID := 0, Name := "Campaign 0", AdAccountID := 0 } (by decide)
  · exact h3 { ID := 1, Name := "AdAccount 1" } (by decide)
      { ID := 1, Name := "Campaign 1", AdAccountID := 1 } (by decide)
  · exact h4 { ID := 0, Name := "AdAccount 0" } (by decide)
      { ID := 2, Name := "Campaign 2", AdAccountID := 0 } (by decide) (by decide)
  · exact h4 { ID := 1, Name := "AdAccount 1" } (by decide)
      { ID := 3, Name := "Campaign 3", AdAccountID := 1 } (by decide) (by decide)
  · rw [h6]
    decide

/-! ## Theorems: the enqueue phases -/

theorem sendAll_eq {α : Type} (cap : Nat) :
    ∀ (items buf : List α), buf.length ≤ cap →
      sendAll cap buf items
        = if buf.length + items.length ≤ cap then some (buf ++ items) else none := by
  intro items
  induction items with
  | nil => intro buf hb; simp [sendAll, hb]
  | cons x rest ih =>
    intro buf hb
    unfold sendAll
    by_cases h : buf.length < cap
    · have hb1 : (buf ++ [x]).length ≤ cap := by
        simp only [List.length_append, List.length_cons, List.length_nil]
        omega
      rw [if_pos h, ih _ hb1]
      simp only [List.length_append, List.length_cons, List.length_nil, List.append_assoc,
        List.singleton_append]
      by_cases h2 : buf.length + (rest.length + 1) ≤ cap
      · rw [if_pos h2, if_pos (by omega)]
      · rw [if_neg h2, if_neg (by omega)]
    · rw [if_neg h, if_neg (by simp only [List.length_cons]; omega)]

theorem Queries.walk_cons {T : Type} (q : Queries T) (a : AdAccount) (rest : List AdAccount)
    (cs : List Campaign) (hcs : q.GetCampaignsForAdAccount a.ID = .ok cs) :
    q.walk (a :: rest) = cs ++ q.walk rest := by
  have hof : q.campaignsOf a.ID = cs := by unfold Queries.campaignsOf; rw [hcs]
  simp [Queries.walk, hof]

theorem enqueueCampaigns_spec {T : Type} (q : Queries T) (cap : Nat) :
    ∀ (adAccounts : List AdAccount) (buf : List Campaign),
      (∀ a ∈ adAccounts, ∃ cs, q.GetCampaignsForAdAccount a.ID = .ok cs) →
      buf.length ≤ cap →
      enqueueCampaigns q cap adAccounts buf
        = if buf.length + (q.walk adAccounts).length ≤ cap
          then .finished (buf ++ q.walk adAccounts) else .deadlock := by
  intro adAccounts
  induction adAccounts with
  | nil => intro buf _ hb; simp [enqueueCampaigns, Queries.walk, hb]
  | cons a rest ih =>
    intro buf hcamp hb
    obtain ⟨cs, hcs⟩ := hcamp a (List.mem_cons_self a rest)
    rw [Queries.walk_cons q a rest cs hcs, List.length_append]
    unfold enqueueCampaigns
    rw [hcs]
    simp only
    rw [sendAll_eq cap cs buf hb]
    by_cases hfit : buf.length + cs.length ≤ cap
    · rw [if_pos hfit]
      simp only
      rw [ih (buf ++ cs) (fun b hb => hcamp b (List.mem_cons_of_mem a hb))
        (by rw [List.length_append]; exact hfit), List.length_append, List.append_assoc]
      by_cases h2 : buf.length + (cs.length + (q.walk rest).length) ≤ cap
      · rw [if_pos h2, if_pos (by omega)]
      · rw [if_neg h2, if_neg (by omega)]
    · rw [if_neg hfit, if_neg (by omega)]

theorem Store.queries_campaigns_ok (s : Store) (adAccounts : List AdAccount) :
    ∀ a ∈ adAccounts, ∃ cs, s.queries.GetCampaignsForAdAccount a.ID = .ok cs :=
  fun _ _ => ⟨_, rfl⟩

theorem crowdedStore_walk_length :
    (crowdedStore.queries.walk crowdedStore.adAccounts).length = 101 := by
  decide

theorem sendAll_accounts (adAccounts : List AdAccount) :
    sendAll adAccounts.length [] adAccounts = some adAccounts := by
  rw [sendAll_eq _ _ _ (Nat.zero_le _)]
  simp

/-- C9 at the failing input: the account queue of `aggregateDataParallelAdAccounts`
has the capacity `len(adAccounts)` and takes every account, but the campaign
queue of `aggregateDataParallelCampaigns` has the fixed capacity 100: on a store
whose single account owns 101 campaigns the enqueue phase blocks on the 101st
send, whatever the number of workers and the schedule, since no worker has been
started yet. -/
theorem enqueue_blocks_beyond_capacity :
    (∀ adAccounts : List AdAccount, sendAll adAccounts.length [] adAccounts = some adAccounts) ∧
    enqueueCampaigns crowdedStore.queries 100 crowdedStore.adAccounts [] = .deadlock ∧
    (∀ (numCPU : Nat) (sched : List Nat),
      aggregateDataParallelCampaigns (fun t : Int => t) crowdedStore.queries numCPU sched
        = .deadlock) := by
  have hdead : enqueueCampaigns crowdedStore.queries 100 crowdedStore.adAccounts []
      = .deadlock := by
    rw [enqueueCampaigns_spec _ _ _ _ (Store.queries_campaigns_ok _ _) (Nat.zero_le _),
      crowdedStore_walk_length]
    rfl
  refine ⟨sendAll_accounts, hdead, ?_⟩
  intro numCPU sched
  unfold aggregateDataParallelCampaigns
  have hacc : crowdedStore.queries.GetAdAccounts = .ok crowdedStore.adAccounts := rfl
  rw [hacc]
  simp only
  rw [hdead]

/-! ## Theorems: the worker phase of the fan-out by campaign -/

end MetricsAggregator
